import Mathlib

/-
  A verification development for the `lola` module installer.

  Python strings are modelled as lists of characters (`PyStr`); filesystem
  paths are modelled as the strings that Python's `Path` objects wrap, with
  `pjoin` standing for the `/` operator on paths.  Filesystem state that the
  code only ever queries (existence, symlink status, `Path.resolve`, and the
  contents of a shared GEMINI.md document) is supplied by a `World` of
  oracles, and every filesystem mutation the code performs is recorded as an
  `Effect` in an ordered log instead of being executed.
-/

namespace Lola

abbrev PyStr := List Char

abbrev FPath := PyStr

/-- `a / b` on `pathlib.Path` values. -/
def pjoin (a b : FPath) : FPath := a ++ '/' :: b

/-- Read-only filesystem facts consumed by the code under verification:
`Path.exists`, `Path.is_symlink`, `Path.resolve`, and whether the shared
GEMINI.md document at a location currently holds sections for a module. -/
structure World where
  fs : FPath → Bool
  symlink : FPath → Bool
  resolve : FPath → FPath
  geminiSections : FPath → PyStr → Bool

/-- One observable action of the code: either a filesystem mutation or a
console report keyed to an item or assistant. -/
inductive Effect where
  | mkdirs (p : FPath)
  | unlinkFile (p : FPath)
  | rmTree (p : FPath)
  | copyTree (src dest : FPath)
  | writeClaudeSkill (src dest : FPath)
  | writeCursorRule (src dest : FPath) (name : PyStr)
  | writeGeminiMd (dest : FPath) (moduleName : PyStr) (skills : List PyStr)
  | writeCommandFile (assistant : PyStr) (src dest : FPath) (name moduleName : PyStr)
  | removeGeminiSections (dest : FPath) (moduleName : PyStr)
  | skipSkillsUserScope (assistant : PyStr)
  | reportInstalled (name : PyStr)
  | reportMissing (name : PyStr)
  | reportPathError (msg : PyStr)
  | reportStale (moduleName assistant : PyStr)
  deriving DecidableEq, Repr

/-- Does an effect mutate the filesystem (as opposed to a console report)? -/
def Effect.isWrite : Effect → Bool
  | .mkdirs _ => true
  | .unlinkFile _ => true
  | .rmTree _ => true
  | .copyTree _ _ => true
  | .writeClaudeSkill _ _ => true
  | .writeCursorRule _ _ _ => true
  | .writeGeminiMd _ _ _ => true
  | .writeCommandFile _ _ _ _ _ => true
  | .removeGeminiSections _ _ => true
  | _ => false

/-- `lola.models.Module` as consumed by the installer: a name, a source path,
skill relative paths and command names (spec section 6). -/
structure Module where
  name : PyStr
  path : FPath
  skills : List PyStr
  commands : List PyStr
  deriving DecidableEq, Repr

/-- One record of `installed.yml` (spec section 3). -/
structure Installation where
  module_name : PyStr
  assistant : PyStr
  scope : PyStr
  project_path : Option PyStr
  skills : List PyStr
  commands : List PyStr
  deriving DecidableEq, Repr

abbrev Registry := List Installation

def instKey (i : Installation) : PyStr × PyStr × PyStr × Option PyStr :=
  (i.module_name, i.assistant, i.scope, i.project_path)

/-- Modelled from the spec: `lola.models.InstallationRegistry.add` is not among
the provided sources.  Spec section 4.3: `add(record)` upserts by the uniqueness
tuple (module, assistant, scope, project) and replaces any prior record for
that tuple wholesale. -/
def registryAdd (r : Registry) (rec : Installation) : Registry :=
  if r.any (fun i => decide (instKey i = instKey rec)) then
    r.map (fun i => if instKey i = instKey rec then rec else i)
  else r ++ [rec]

/-- Modelled from the spec: `lola.models.InstallationRegistry.find` is not among
the provided sources.  Spec section 4.3: returns all records matching the
non-null filters, insertion order.  `uninstall_cmd` calls it with only the
module name. -/
def registryFind (r : Registry) (moduleName : PyStr) : List Installation :=
  r.filter (fun i => decide (i.module_name = moduleName))

/-- Modelled from the spec: `lola.models.InstallationRegistry.remove` is not
among the provided sources.  Spec section 4.3: deletes the record matching the
full uniqueness tuple if present; no-op otherwise. -/
def registryRemove (r : Registry) (moduleName assistant scope : PyStr)
    (projectPath : Option PyStr) : Registry :=
  r.filter (fun i =>
    !(decide (instKey i = (moduleName, assistant, scope, projectPath))))

/- Assistant and scope string constants from `lola.config.ASSISTANTS`. -/

def claudeCode : PyStr := "claude-code".data
def geminiCli : PyStr := "gemini-cli".data
def cursorAsst : PyStr := "cursor".data
def userScope : PyStr := "user".data
def projectScope : PyStr := "project".data

def knownAssistants : List PyStr := [claudeCode, geminiCli, cursorAsst]

/-- `Path.home()`: an abstract home directory, never inspected. -/
def HOME : FPath := "~".data

/-- `lola.config.LOLA_HOME` (the `LOLA_HOME` environment override is not
modelled: no claim depends on it). -/
def LOLA_HOME : FPath := pjoin HOME ".lola".data

/-- `lola.config.MODULES_DIR`. -/
def MODULES_DIR : FPath := pjoin LOLA_HOME "modules".data

/-- The user-scope entry of `lola.config.ASSISTANTS` for a known assistant. -/
def assistantSkillUserPath (assistant : PyStr) : FPath :=
  if assistant = geminiCli then pjoin (pjoin HOME ".gemini".data) "GEMINI.md".data
  else if assistant = cursorAsst then pjoin (pjoin HOME ".cursor".data) "rules".data
  else pjoin (pjoin HOME ".claude".data) "skills".data

/-- The project-scope entry of `lola.config.ASSISTANTS` for a known assistant. -/
def assistantSkillProjectPath (assistant : PyStr) (p : PyStr) : FPath :=
  if assistant = geminiCli then pjoin p "GEMINI.md".data
  else if assistant = cursorAsst then pjoin (pjoin p ".cursor".data) "rules".data
  else pjoin (pjoin p ".claude".data) "skills".data

/-- `lola.config.get_assistant_skill_path`: `ValueError` becomes `Except.error`.
Python's falsy test on `project_path` covers both `None` and the empty
string. -/
def get_assistant_skill_path (assistant scope : PyStr) (project_path : Option PyStr) :
    Except PyStr FPath :=
  if assistant ∈ knownAssistants then
    if scope = projectScope then
      match project_path with
      | none => .error "Project path required for project scope".data
      | some p =>
        if p.isEmpty then .error "Project path required for project scope".data
        else .ok (assistantSkillProjectPath assistant p)
    else .ok (assistantSkillUserPath assistant)
  else .error "Unknown assistant".data

/-- Modelled from the spec: `lola.config.get_assistant_command_path` is not
among the provided sources.  Spec section 4.2: `resolveCommandPath(scope,
projectPath)` "always succeeds for a known assistant"; commands live in a
per-assistant commands directory at either scope. -/
def assistantCommandLocation (assistant scope : PyStr) (project_path : Option PyStr) : FPath :=
  let base :=
    if scope = projectScope then
      match project_path with
      | some p => p
      | none => HOME
    else HOME
  pjoin (pjoin base ('.' :: assistant)) "commands".data

/-- Modelled from the spec: `lola.config.get_assistant_command_path` is not
among the provided sources.  Spec section 4.2: always succeeds for a known
assistant; unknown assistants raise `ValueError` as in
`get_assistant_skill_path`. -/
def get_assistant_command_path (assistant scope : PyStr) (project_path : Option PyStr) :
    Except PyStr FPath :=
  if assistant ∈ knownAssistants then
    .ok (assistantCommandLocation assistant scope project_path)
  else .error "Unknown assistant".data

/- Naming scheme (spec section 4.1; `lola/core/installer.py` line 144 and
`lola/cli/install.py` lines 379-384 and 396-402). -/

/-- `f"{module.name}-{skill_name}"`. -/
def prefixedName (moduleName itemName : PyStr) : PyStr := moduleName ++ '-' :: itemName

/-- The inverse used by `update_cmd`: strip the leading `module_name + "-"`
when present (`prefixed_skill.startswith(prefix)`), else return the input
unchanged. -/
def unprefixed (moduleName s : PyStr) : PyStr :=
  let pre := moduleName ++ ['-']
  if pre.isPrefixOf s then s.drop pre.length else s

/-- `Path(skill_rel).name`: the last `/`-separated component. -/
def basename (s : PyStr) : PyStr := (s.splitOn '/').getLastD []

/-- `lola.core.installer.copy_module_to_local`, with mutations as effects.
`shutil.copytree`, `Path.unlink`, `shutil.rmtree` and `Path.mkdir` are
recorded, not executed. -/
def copy_module_to_local (w : World) (module : Module) (local_modules_path : FPath) :
    FPath × List Effect :=
  let dest := pjoin local_modules_path module.name
  if w.resolve dest = w.resolve module.path then (dest, [])
  else
    let cleanup :=
      if w.symlink dest then [Effect.unlinkFile dest]
      else if w.fs dest then [Effect.rmTree dest]
      else []
    (dest, Effect.mkdirs local_modules_path :: (cleanup ++ [Effect.copyTree module.path dest]))

/-- A reusable trivial world: nothing exists, nothing is a symlink, path
resolution is the identity, no GEMINI.md sections. -/
def emptyWorld : World :=
  { fs := fun _ => false
    symlink := fun _ => false
    resolve := id
    geminiSections := fun _ _ => false }

/-- A world in which every path exists (and nothing is a symlink). -/
def allExistWorld : World :=
  { fs := fun _ => true
    symlink := fun _ => false
    resolve := id
    geminiSections := fun _ _ => false }

/-- The "docgen" module of the spec scenarios: one skill, no commands. -/
def docgenModule : Module :=
  { name := "docgen".data
    path := pjoin MODULES_DIR "docgen".data
    skills := ["summarize".data]
    commands := [] }

/-- C9: if the destination `local_modules_path / module.name` resolves to the
same filesystem path as `module.path`, `copy_module_to_local` returns that
destination and performs no filesystem modification: no deletion of the
existing tree and no copy. -/
theorem copy_module_to_local_self_noop (w : World) (module : Module) (lmp : FPath)
    (h : w.resolve (pjoin lmp module.name) = w.resolve module.path) :
    copy_module_to_local w module lmp = (pjoin lmp module.name, []) := by
  simp [copy_module_to_local, h]

/-- Witness for C9: copying the docgen module onto its own location in the
global modules directory is a no-op. -/
theorem copy_module_to_local_self_noop_witness :
    emptyWorld.resolve (pjoin MODULES_DIR docgenModule.name) = emptyWorld.resolve docgenModule.path ∧
    copy_module_to_local emptyWorld docgenModule MODULES_DIR =
      (pjoin MODULES_DIR docgenModule.name, []) :=
  ⟨rfl, copy_module_to_local_self_noop emptyWorld docgenModule MODULES_DIR rfl⟩

/-- C4: for module names `m` and item names `i` not containing `m ++ "-"` as a
substring, stripping the leading `m ++ "-"` from the prefixed name recovers
`i`; and a name `j` that does not start with `m ++ "-"` is returned
unchanged. -/
theorem unprefixed_prefixedName_roundtrip (m i j : PyStr)
    (_h : ¬ (m ++ ['-']) <:+: i) (hj : (m ++ ['-']).isPrefixOf j = false) :
    unprefixed m (prefixedName m i) = i ∧ unprefixed m j = j := by
  have hsplit : prefixedName m i = (m ++ ['-']) ++ i := by simp [prefixedName]
  refine ⟨?_, ?_⟩
  · have hp : (m ++ ['-']).isPrefixOf (prefixedName m i) = true := by
      rw [ List.isPrefixOf_iff_prefix, hsplit]
      exact List.prefix_append _ _
    simp only [unprefixed, hp, if_true]
    rw [hsplit, List.drop_left]
  · simp [unprefixed, hj]

/-- Witness for C4: module "docgen", item "summarize", unrelated name "draft". -/
theorem unprefixed_prefixedName_roundtrip_witness :
    (¬ ("docgen".data ++ ['-']) <:+: "summarize".data) ∧
    ("docgen".data ++ ['-']).isPrefixOf "draft".data = false ∧
    (unprefixed "docgen".data (prefixedName "docgen".data "summarize".data) = "summarize".data ∧
      unprefixed "docgen".data "draft".data = "draft".data) :=
  ⟨by decide, by decide,
    unprefixed_prefixedName_roundtrip "docgen".data "summarize".data "draft".data
      (by decide) (by decide)⟩

/- ------------------------------------------------------------------ -/
/- `lola.core.installer.install_to_assistant`                          -/
/- ------------------------------------------------------------------ -/

/-- Modelled from the spec: the `lola.core.generator` write primitives
(`generate_claude_skill`, `generate_cursor_rule`, `generate_*_command`) are
not among the provided sources.  Spec section 4.2: each write primitive
materializes one artifact and "returns false (not an exception) when the
source content is missing". -/
def generatorWriteOk (w : World) (source : FPath) : Bool := w.fs source

/-- The claude-code / cursor skill loop of `install_to_assistant` (installer.py
lines 139-156): per item, generate the artifact, accumulate the prefixed name
on success, report per item. -/
def installSkillsFiles (w : World) (moduleName assistant : PyStr)
    (lmp skill_dest : FPath) : List PyStr → List PyStr × List Effect
  | [] => ([], [])
  | rel :: rest =>
    let skillName := basename rel
    let source := pjoin lmp skillName
    let pn := prefixedName moduleName skillName
    let restR := installSkillsFiles w moduleName assistant lmp skill_dest rest
    if generatorWriteOk w source then
      (pn :: restR.1,
        (if assistant = cursorAsst then Effect.writeCursorRule source skill_dest pn
         else Effect.writeClaudeSkill source (pjoin skill_dest pn)) ::
          Effect.reportInstalled pn :: restR.2)
    else (restR.1, Effect.reportMissing skillName :: restR.2)

/-- The gemini-cli skill loop of `install_to_assistant` (installer.py lines
121-134): collect the skills whose source exists (the `gemini_skills` list,
tracked here by skill name; the description passed alongside it is a pure read
of the source), accumulate prefixed names, report per item. -/
def installSkillsGemini (w : World) (moduleName : PyStr) (lmp : FPath) :
    List PyStr → List PyStr × List PyStr × List Effect
  | [] => ([], [], [])
  | rel :: rest =>
    let skillName := basename rel
    let source := pjoin lmp skillName
    let pn := prefixedName moduleName skillName
    let restR := installSkillsGemini w moduleName lmp rest
    if w.fs source then
      (skillName :: restR.1, pn :: restR.2.1, Effect.reportInstalled pn :: restR.2.2)
    else (restR.1, restR.2.1, Effect.reportMissing skillName :: restR.2.2)

/-- The skills section of `install_to_assistant` (installer.py lines 96-156):
scope-support checks, destination resolution, then the per-assistant loop. -/
def installSkillsPart (w : World) (module : Module) (assistant scope : PyStr)
    (project_path : Option PyStr) (lmp : FPath) : List PyStr × List Effect :=
  if module.skills.isEmpty then ([], [])
  else
    let skipGemini := assistant = geminiCli ∧ scope = userScope
    let skipCursor := assistant = cursorAsst ∧ scope = userScope
    if skipGemini ∨ skipCursor then
      ([], (if skipGemini then [Effect.skipSkillsUserScope assistant] else []) ++
           (if skipCursor then [Effect.skipSkillsUserScope assistant] else []))
    else
      match get_assistant_skill_path assistant scope project_path with
      | .error e => ([], [Effect.reportPathError e])
      | .ok skill_dest =>
        if assistant = geminiCli then
          let r := installSkillsGemini w module.name lmp module.skills
          (r.2.1, r.2.2 ++
            (if r.1.isEmpty then []
             else [Effect.writeGeminiMd skill_dest module.name r.1]))
        else installSkillsFiles w module.name assistant lmp skill_dest module.skills

/-- The command loop of `install_to_assistant` (installer.py lines 169-184):
per command, generate `<name>.md` from the module's commands directory,
accumulate the raw command name on success. -/
def installCommandsList (w : World) (moduleName assistant : PyStr)
    (commandsDir command_dest : FPath) : List PyStr → List PyStr × List Effect
  | [] => ([], [])
  | cmd :: rest =>
    let source := pjoin commandsDir (cmd ++ ".md".data)
    let restR := installCommandsList w moduleName assistant commandsDir command_dest rest
    if generatorWriteOk w source then
      (cmd :: restR.1,
        Effect.writeCommandFile assistant source command_dest cmd moduleName ::
          Effect.reportInstalled (prefixedName moduleName cmd) :: restR.2)
    else (restR.1, Effect.reportMissing cmd :: restR.2)

/-- The commands section of `install_to_assistant` (installer.py lines
158-184): commands support all scopes for all assistants. -/
def installCommandsPart (w : World) (module : Module) (assistant scope : PyStr)
    (project_path : Option PyStr) (lmp : FPath) : List PyStr × List Effect :=
  if module.commands.isEmpty then ([], [])
  else
    match get_assistant_command_path assistant scope project_path with
    | .error e => ([], [Effect.reportPathError e])
    | .ok command_dest =>
      installCommandsList w module.name assistant (pjoin lmp "commands".data)
        command_dest module.commands

structure InstallResult where
  count : Nat
  registry : Registry
  effects : List Effect
  deriving DecidableEq, Repr

/-- `lola.core.installer.install_to_assistant`: copy the module to the local
modules directory, run the skills and commands sections, record an
installation iff either accumulated list is non-empty, and return the number
of installed skills plus commands. -/
def install_to_assistant (w : World) (module : Module) (assistant scope : PyStr)
    (project_path : Option PyStr) (local_modules : FPath) (registry : Registry) :
    InstallResult :=
  let cpy := copy_module_to_local w module local_modules
  let sk := installSkillsPart w module assistant scope project_path cpy.1
  let cm := installCommandsPart w module assistant scope project_path cpy.1
  { count := sk.1.length + cm.1.length
    registry :=
      if sk.1.isEmpty && cm.1.isEmpty then registry
      else
        registryAdd registry
          { module_name := module.name, assistant := assistant, scope := scope
            project_path := project_path, skills := sk.1, commands := cm.1 }
    effects := cpy.2 ++ sk.2 ++ cm.2 }

/-- C1: a record is persisted iff at least one item was installed (positive
count); with both accumulated lists empty the registry is returned untouched;
the count is the length of the record's skills list plus its commands list. -/
theorem install_to_assistant_persists_iff (w : World) (module : Module)
    (assistant scope : PyStr) (pp : Option PyStr) (lm : FPath) (reg : Registry) :
    (install_to_assistant w module assistant scope pp lm reg).count = 0 ∧
      (install_to_assistant w module assistant scope pp lm reg).registry = reg ∨
    0 < (install_to_assistant w module assistant scope pp lm reg).count ∧
      ∃ rec : Installation,
        (install_to_assistant w module assistant scope pp lm reg).registry =
            registryAdd reg rec ∧
        ¬ (rec.skills = [] ∧ rec.commands = []) ∧
        (install_to_assistant w module assistant scope pp lm reg).count =
            rec.skills.length + rec.commands.length ∧
        rec.module_name = module.name ∧ rec.assistant = assistant ∧
        rec.scope = scope ∧ rec.project_path = pp := by
  dsimp only [install_to_assistant]
  cases hb : (installSkillsPart w module assistant scope pp
      (copy_module_to_local w module lm).1).1.isEmpty &&
      (installCommandsPart w module assistant scope pp
      (copy_module_to_local w module lm).1).1.isEmpty with
  | true =>
    left
    rw [Bool.and_eq_true] at hb
    have h1 := List.isEmpty_iff.mp hb.1
    have h2 := List.isEmpty_iff.mp hb.2
    simp [hb.1, hb.2, h1, h2]
  | false =>
    right
    have hb' := hb
    rw [Bool.and_eq_false_iff] at hb'
    have hne : ¬ ((installSkillsPart w module assistant scope pp
        (copy_module_to_local w module lm).1).1 = [] ∧
        (installCommandsPart w module assistant scope pp
        (copy_module_to_local w module lm).1).1 = []) := by
      rintro ⟨e1, e2⟩
      rcases hb' with hb' | hb' <;> simp [e1, e2] at hb'
    constructor
    · have hpos : (installSkillsPart w module assistant scope pp
          (copy_module_to_local w module lm).1).1 ≠ [] ∨
          (installCommandsPart w module assistant scope pp
          (copy_module_to_local w module lm).1).1 ≠ [] := by
        rcases hb' with hb' | hb'
        · exact Or.inl (fun e => by simp [e] at hb')
        · exact Or.inr (fun e => by simp [e] at hb')
      rcases hpos with h | h
      · have := List.length_pos.mpr h; omega
      · have := List.length_pos.mpr h; omega
    · refine ⟨{ module_name := module.name, assistant := assistant, scope := scope,
                project_path := pp,
                skills := (installSkillsPart w module assistant scope pp
                  (copy_module_to_local w module lm).1).1,
                commands := (installCommandsPart w module assistant scope pp
                  (copy_module_to_local w module lm).1).1 },
        ?_, hne, rfl, rfl, rfl, rfl, rfl⟩
      simp [hb]

/-- C2: installing a module with exactly one skill and no commands to
gemini-cli at user scope skips the skill with a user-scope-not-supported
message, installs zero items, and creates no registry record. -/
theorem install_gemini_user_scope_skips (w : World) (module : Module)
    (pp : Option PyStr) (lm : FPath) (reg : Registry)
    (h1 : module.skills.length = 1) (h2 : module.commands = []) :
    (install_to_assistant w module geminiCli userScope pp lm reg).count = 0 ∧
    (install_to_assistant w module geminiCli userScope pp lm reg).registry = reg ∧
    Effect.skipSkillsUserScope geminiCli ∈
      (install_to_assistant w module geminiCli userScope pp lm reg).effects := by
  have hsk : module.skills.isEmpty = false := by
    cases h : module.skills with
    | nil => rw [h] at h1; simp at h1
    | cons a t => simp [h]
  have hgc : ¬ (geminiCli = cursorAsst) := by decide
  have hpart : installSkillsPart w module geminiCli userScope pp
      (copy_module_to_local w module lm).1 =
      ([], [Effect.skipSkillsUserScope geminiCli]) := by
    simp [installSkillsPart, hsk, hgc]
  have hcmd : installCommandsPart w module geminiCli userScope pp
      (copy_module_to_local w module lm).1 = ([], []) := by
    simp [installCommandsPart, h2]
  refine ⟨?_, ?_, ?_⟩ <;>
    simp [install_to_assistant, hpart, hcmd]

/-- Witness for C2: the docgen module of the spec scenario, in a world where
every source exists, still installs nothing to gemini-cli at user scope. -/
theorem install_gemini_user_scope_skips_witness :
    docgenModule.skills.length = 1 ∧ docgenModule.commands = [] ∧
    ((install_to_assistant allExistWorld docgenModule geminiCli userScope none
        MODULES_DIR []).count = 0 ∧
     (install_to_assistant allExistWorld docgenModule geminiCli userScope none
        MODULES_DIR []).registry = [] ∧
     Effect.skipSkillsUserScope geminiCli ∈
       (install_to_assistant allExistWorld docgenModule geminiCli userScope none
          MODULES_DIR []).effects) :=
  ⟨rfl, rfl,
    install_gemini_user_scope_skips allExistWorld docgenModule none MODULES_DIR []
      rfl rfl⟩

/-- A probe module with one skill and one command, used to exercise every
(assistant, scope) combination. -/
def probeModule : Module :=
  { name := "docgen".data
    path := pjoin MODULES_DIR "docgen".data
    skills := ["summarize".data]
    commands := ["draft".data] }

/-- C7: with every source present, skills are refused with the user-scope skip
exactly for gemini-cli at user scope and cursor at user scope (the one skill
is not installed, leaving only the command, so the count drops from 2 to 1),
and command path resolution succeeds for every known assistant at either
scope. -/
theorem skill_scope_support_exact (a s : PyStr)
    (ha : a ∈ knownAssistants) (hs : s ∈ [userScope, projectScope]) :
    ((install_to_assistant allExistWorld probeModule a s (some "/proj".data)
        MODULES_DIR []).count =
      if (a = geminiCli ∨ a = cursorAsst) ∧ s = userScope then 1 else 2) ∧
    ((Effect.skipSkillsUserScope a ∈
        (install_to_assistant allExistWorld probeModule a s (some "/proj".data)
          MODULES_DIR []).effects) ↔
      ((a = geminiCli ∨ a = cursorAsst) ∧ s = userScope)) ∧
    (get_assistant_command_path a s (some "/proj".data)).isOk = true := by
  simp only [knownAssistants, List.mem_cons, List.not_mem_nil, or_false] at ha hs
  rcases ha with rfl | rfl | rfl <;> rcases hs with rfl | rfl <;> decide

/-- Witness for C7: gemini-cli at user scope is one of the refused
combinations. -/
theorem skill_scope_support_exact_witness :
    geminiCli ∈ knownAssistants ∧ userScope ∈ [userScope, projectScope] ∧
    (((install_to_assistant allExistWorld probeModule geminiCli userScope
        (some "/proj".data) MODULES_DIR []).count =
      if (geminiCli = geminiCli ∨ geminiCli = cursorAsst) ∧ userScope = userScope
      then 1 else 2) ∧
     ((Effect.skipSkillsUserScope geminiCli ∈
        (install_to_assistant allExistWorld probeModule geminiCli userScope
          (some "/proj".data) MODULES_DIR []).effects) ↔
      ((geminiCli = geminiCli ∨ geminiCli = cursorAsst) ∧ userScope = userScope)) ∧
     (get_assistant_command_path geminiCli userScope (some "/proj".data)).isOk = true) :=
  ⟨by decide, by decide,
    skill_scope_support_exact geminiCli userScope (by decide) (by decide)⟩

/-- When every skill source is missing, the gemini skill loop collects nothing
and reports each item. -/
theorem installSkillsGemini_all_missing (w : World) (mn : PyStr) (lmp : FPath)
    (skills : List PyStr)
    (h : ∀ rel ∈ skills, w.fs (pjoin lmp (basename rel)) = false) :
    installSkillsGemini w mn lmp skills =
      ([], [], skills.map fun rel => Effect.reportMissing (basename rel)) := by
  induction skills with
  | nil => rfl
  | cons rel rest ih =>
    have h0 := h rel (List.mem_cons_self rel rest)
    have ih' := ih fun r hr => h r (List.mem_cons_of_mem _ hr)
    simp [installSkillsGemini, h0, ih']

/-- The command loop never writes the gemini aggregate document. -/
theorem installCommandsList_no_geminiMd (w : World) (mn a : PyStr) (cd dest : FPath)
    (cmds : List PyStr) (d : FPath) (m2 : PyStr) (sks : List PyStr) :
    Effect.writeGeminiMd d m2 sks ∉ (installCommandsList w mn a cd dest cmds).2 := by
  induction cmds with
  | nil => simp [installCommandsList]
  | cons c rest ih =>
    by_cases hw : generatorWriteOk w (pjoin cd (c ++ ".md".data)) = true
    · simpa [installCommandsList, hw] using ih
    · simp only [Bool.not_eq_true] at hw
      simpa [installCommandsList, hw] using ih

/-- The commands section never writes the gemini aggregate document. -/
theorem installCommandsPart_no_geminiMd (w : World) (module : Module)
    (a s : PyStr) (pp : Option PyStr) (lmp : FPath) (d : FPath) (m2 : PyStr)
    (sks : List PyStr) :
    Effect.writeGeminiMd d m2 sks ∉ (installCommandsPart w module a s pp lmp).2 := by
  unfold installCommandsPart
  by_cases he : module.commands.isEmpty = true
  · simp [he]
  · simp only [Bool.not_eq_true] at he
    cases hres : get_assistant_command_path a s pp with
    | error e => simp [he, hres]
    | ok cdest => simp [he, hres, installCommandsList_no_geminiMd]

/-- Copying the module to the local modules directory never writes the gemini
aggregate document. -/
theorem copy_module_to_local_no_geminiMd (w : World) (m : Module) (lm : FPath)
    (d : FPath) (m2 : PyStr) (sks : List PyStr) :
    Effect.writeGeminiMd d m2 sks ∉ (copy_module_to_local w m lm).2 := by
  unfold copy_module_to_local
  by_cases h1 : w.resolve (pjoin lm m.name) = w.resolve m.path
  · simp [h1]
  · by_cases h2 : w.symlink (pjoin lm m.name) = true
    · simp [h1, h2]
    · simp only [Bool.not_eq_true] at h2
      by_cases h3 : w.fs (pjoin lm m.name) = true
      · simp [h1, h2, h3]
      · simp only [Bool.not_eq_true] at h3
        simp [h1, h2, h3]

/-- C10: during a gemini-cli project-scope skill install in which every skill
source is missing, the shared GEMINI.md aggregate is never written, while each
missing skill is still reported per item. -/
theorem gemini_md_untouched_when_sources_missing (w : World) (module : Module)
    (p : PyStr) (lm : FPath) (reg : Registry) (hp : p.isEmpty = false)
    (h : ∀ rel ∈ module.skills,
        w.fs (pjoin (pjoin lm module.name) (basename rel)) = false) :
    (∀ d mn sks, Effect.writeGeminiMd d mn sks ∉
        (install_to_assistant w module geminiCli projectScope (some p) lm reg).effects) ∧
    (∀ rel ∈ module.skills, Effect.reportMissing (basename rel) ∈
        (install_to_assistant w module geminiCli projectScope (some p) lm reg).effects) := by
  have hmem : geminiCli ∈ knownAssistants := by decide
  have hsp : ¬ (projectScope = userScope) := by decide
  have hlmp : (copy_module_to_local w module lm).1 = pjoin lm module.name := by
    unfold copy_module_to_local
    by_cases h1 : w.resolve (pjoin lm module.name) = w.resolve module.path <;> simp [h1]
  by_cases he : module.skills.isEmpty = true
  · have he' := List.isEmpty_iff.mp he
    have hpart : installSkillsPart w module geminiCli projectScope (some p)
        (copy_module_to_local w module lm).1 = ([], []) := by
      simp [installSkillsPart, he]
    constructor
    · intro d mn sks
      simp only [install_to_assistant, hpart, List.append_nil]
      intro hmem'
      rcases List.mem_append.mp hmem' with hc | hc
      · exact copy_module_to_local_no_geminiMd w module lm d mn sks hc
      · exact installCommandsPart_no_geminiMd w module geminiCli projectScope
          (some p) _ d mn sks hc
    · intro rel hrel
      rw [he'] at hrel
      simp at hrel
  · simp only [Bool.not_eq_true] at he
    have hgem := installSkillsGemini_all_missing w module.name (pjoin lm module.name)
      module.skills (by simpa [hlmp] using h)
    have hpart : installSkillsPart w module geminiCli projectScope (some p)
        (copy_module_to_local w module lm).1 =
        ([], module.skills.map fun rel => Effect.reportMissing (basename rel)) := by
      simp [installSkillsPart, he, hsp, get_assistant_skill_path, hmem, hp, hlmp, hgem]
    constructor
    · intro d mn sks
      simp only [install_to_assistant, hpart]
      intro hmem'
      rcases List.mem_append.mp hmem' with hc | hc
      · rcases List.mem_append.mp hc with hc' | hc'
        · exact copy_module_to_local_no_geminiMd w module lm d mn sks hc'
        · rcases List.mem_map.mp hc' with ⟨rel, _, habs⟩
          exact Effect.noConfusion habs
      · exact installCommandsPart_no_geminiMd w module geminiCli projectScope
          (some p) _ d mn sks hc
    · intro rel hrel
      simp only [install_to_assistant, hpart]
      refine List.mem_append.mpr (Or.inl (List.mem_append.mpr (Or.inr ?_)))
      exact List.mem_map.mpr ⟨rel, hrel, rfl⟩

/-- Witness for C10: one missing skill, nothing written to GEMINI.md, the
missing skill reported. -/
theorem gemini_md_untouched_when_sources_missing_witness :
    ("/proj".data : PyStr).isEmpty = false ∧
    (∀ rel ∈ docgenModule.skills,
        emptyWorld.fs (pjoin (pjoin MODULES_DIR docgenModule.name) (basename rel)) = false) ∧
    ((∀ d mn sks, Effect.writeGeminiMd d mn sks ∉
        (install_to_assistant emptyWorld docgenModule geminiCli projectScope
          (some "/proj".data) MODULES_DIR []).effects) ∧
     (∀ rel ∈ docgenModule.skills, Effect.reportMissing (basename rel) ∈
        (install_to_assistant emptyWorld docgenModule geminiCli projectScope
          (some "/proj".data) MODULES_DIR []).effects)) :=
  ⟨rfl, by decide,
    gemini_md_untouched_when_sources_missing emptyWorld docgenModule "/proj".data
      MODULES_DIR [] rfl (by decide)⟩

/- ------------------------------------------------------------------ -/
/- `lola.cli.install.install_cmd`                                      -/
/- ------------------------------------------------------------------ -/

/-- Modelled from the spec: the Module collaborator's `from_path` and
`validate` (in `lola.models`, not among the provided sources) are external
interface points (spec section 6); they are supplied as oracles. -/
structure Env where
  moduleAt : FPath → Option Module
  validate : Module → Bool × List PyStr

/-- Modelled from the spec: `lola.utils.get_local_modules_path` is not among
the provided sources.  Spec sections 3 and 4.4: project installs keep a
project-local cached copy of the module source under the project's
`.lola/modules`; without a (truthy) project path the global modules directory
is used. -/
def get_local_modules_path (project_path : Option PyStr) : FPath :=
  match project_path with
  | some p =>
    if p.isEmpty then MODULES_DIR
    else pjoin (pjoin p ".lola".data) "modules".data
  | none => MODULES_DIR

structure CmdResult where
  count : Nat
  registry : Registry
  effects : List Effect
  deriving DecidableEq, Repr

/-- The per-assistant loop of `install_cmd` (install.py lines 119-124),
threading the registry through successive `install_to_assistant` calls. -/
def installAssistantsFold (w : World) (module : Module) (scope : PyStr)
    (pp : Option PyStr) (lm : FPath) :
    List PyStr → Registry → Nat × Registry × List Effect
  | [], reg => (0, reg, [])
  | a :: rest, reg =>
    let r := install_to_assistant w module a scope pp lm reg
    let restR := installAssistantsFold w module scope pp lm rest r.registry
    (r.count + restR.1, restR.2.1, r.effects ++ restR.2.2)

/-- The project-path precondition of `install_cmd` (install.py lines 69-79):
at project scope the path argument is required, resolved, and must exist; at
user scope the path argument is passed through unchanged.  `SystemExit(1)` is
modelled as `Except.error 1`. -/
def installPpStep (w : World) (scope : PyStr) (project_path : Option PyStr) :
    Except Nat (Option PyStr) :=
  if scope = projectScope then
    match project_path with
    | none => .error 1
    | some p =>
      if p.isEmpty then .error 1
      else if w.fs (w.resolve p) then .ok (some (w.resolve p)) else .error 1
  else .ok project_path

/-- The body of `install_cmd` after project-path validation (install.py lines
81-126): module lookup, validation, and the per-assistant loop. -/
def installMain (w : World) (env : Env) (module_name : PyStr)
    (assistant : Option PyStr) (scope : PyStr) (pp : Option PyStr)
    (reg : Registry) : Except Nat CmdResult :=
  if w.fs (pjoin MODULES_DIR module_name) = false then .error 1
  else
    match env.moduleAt (pjoin MODULES_DIR module_name) with
    | none => .error 1
    | some module =>
      if (env.validate module).1 = false then .error 1
      else if module.skills.isEmpty && module.commands.isEmpty then
        .ok { count := 0, registry := reg, effects := [] }
      else
        let lm := get_local_modules_path pp
        let asts := match assistant with
          | some a => [a]
          | none => knownAssistants
        let r := installAssistantsFold w module scope pp lm asts reg
        .ok { count := r.1, registry := r.2.1, effects := r.2.2 }

/-- `lola.cli.install.install_cmd` (install.py lines 55-126). -/
def install_cmd (w : World) (env : Env) (module_name : PyStr)
    (assistant : Option PyStr) (scope : PyStr) (project_path : Option PyStr)
    (reg : Registry) : Except Nat CmdResult :=
  match installPpStep w scope project_path with
  | .error n => .error n
  | .ok pp => installMain w env module_name assistant scope pp reg

/-- Membership in an upserted registry: the record is an old one or the
upserted one. -/
theorem mem_registryAdd (r : Registry) (x rec : Installation)
    (h : rec ∈ registryAdd r x) : rec ∈ r ∨ rec = x := by
  unfold registryAdd at h
  by_cases hc : r.any (fun i => decide (instKey i = instKey x)) = true
  · rw [if_pos hc] at h
    rcases List.mem_map.mp h with ⟨i, hi, hrec⟩
    by_cases hk : instKey i = instKey x
    · right
      rw [if_pos hk] at hrec
      exact hrec.symm
    · left
      rw [if_neg hk] at hrec
      exact hrec ▸ hi
  · rw [if_neg hc] at h
    rcases List.mem_append.mp h with h | h
    · exact Or.inl h
    · right
      simpa using h

/-- Any record in the registry returned by `install_to_assistant` was already
present or carries the project path the call was made with. -/
theorem install_to_assistant_registry_mem (w : World) (module : Module)
    (a s : PyStr) (pp : Option PyStr) (lm : FPath) (reg : Registry) :
    ∀ rec ∈ (install_to_assistant w module a s pp lm reg).registry,
      rec ∈ reg ∨ rec.project_path = pp := by
  intro rec hrec
  dsimp only [install_to_assistant] at hrec
  by_cases hb : ((installSkillsPart w module a s pp
      (copy_module_to_local w module lm).1).1.isEmpty &&
      (installCommandsPart w module a s pp
      (copy_module_to_local w module lm).1).1.isEmpty) = true
  · rw [if_pos hb] at hrec
    exact Or.inl hrec
  · rw [if_neg hb] at hrec
    rcases mem_registryAdd _ _ _ hrec with h | h
    · exact Or.inl h
    · exact Or.inr (by rw [h])

/-- Any record in the registry returned by the per-assistant loop was already
present or carries the loop's project path. -/
theorem installAssistantsFold_registry_mem (w : World) (module : Module)
    (s : PyStr) (pp : Option PyStr) (lm : FPath) :
    ∀ (asts : List PyStr) (reg : Registry),
      ∀ rec ∈ (installAssistantsFold w module s pp lm asts reg).2.1,
        rec ∈ reg ∨ rec.project_path = pp := by
  intro asts
  induction asts with
  | nil =>
    intro reg rec h
    exact Or.inl h
  | cons a rest ih =>
    intro reg rec h
    have h1 := ih (install_to_assistant w module a s pp lm reg).registry rec h
    rcases h1 with h1 | h1
    · exact install_to_assistant_registry_mem w module a s pp lm reg rec h1
    · exact Or.inr h1

/-- Counterexample input to C5 as stated: a user-scope install that also
passes a project-path argument. -/
def c5Env : Env :=
  { moduleAt := fun _ => some docgenModule
    validate := fun _ => (true, []) }

/-- The registry `install_cmd` leaves behind for the counterexample run. -/
def c5Registry : Registry :=
  match install_cmd allExistWorld c5Env "docgen".data (some claudeCode) userScope
      (some "/tmp/x".data) [] with
  | .ok r => r.registry
  | .error _ => []

/-- The record the counterexample run is expected to persist. -/
def c5ExpectedRec : Installation :=
  { module_name := "docgen".data
    assistant := claudeCode
    scope := userScope
    project_path := some "/tmp/x".data
    skills := [prefixedName "docgen".data "summarize".data]
    commands := [] }

/-- Counterexample to C5 as stated: `lola install docgen -a claude-code`
(default user scope) with the optional path argument `/tmp/x` persists exactly
one record, and that record violates "project_path is non-null iff scope =
project": its scope is "user" yet its project_path is non-null. -/
theorem install_user_scope_project_path_counterexample :
    c5Registry = [c5ExpectedRec] ∧
    ¬ ((c5ExpectedRec.project_path ≠ none) ↔ (c5ExpectedRec.scope = projectScope)) := by
  constructor
  · decide
  · decide

/-- Project-path validation: a successful step yields a non-null path at
project scope and the verbatim argument otherwise. -/
theorem installPpStep_ok (w : World) (scope : PyStr) (ppArg pp : Option PyStr)
    (hok : installPpStep w scope ppArg = .ok pp) :
    (scope = projectScope → pp ≠ none) ∧ (¬ scope = projectScope → pp = ppArg) := by
  unfold installPpStep at hok
  split at hok
  · rename_i hscope
    split at hok
    · exact absurd hok (by simp)
    · split at hok
      · exact absurd hok (by simp)
      · split at hok
        · refine ⟨fun _ => ?_, fun hc => absurd hscope hc⟩
          cases hok
          simp
        · exact absurd hok (by simp)
  · rename_i hscope
    cases hok
    exact ⟨fun hc => absurd hc hscope, fun _ => rfl⟩

/-- The main body persists only records that were already present or carry the
validated project path. -/
theorem installMain_registry_mem (w : World) (env : Env) (mn : PyStr)
    (assistant : Option PyStr) (scope : PyStr) (pp : Option PyStr)
    (reg : Registry) (res : CmdResult)
    (hok : installMain w env mn assistant scope pp reg = .ok res) :
    ∀ rec ∈ res.registry, rec ∈ reg ∨ rec.project_path = pp := by
  intro rec hrec
  unfold installMain at hok
  split at hok
  · exact absurd hok (by simp)
  · split at hok
    · exact absurd hok (by simp)
    · rename_i module _
      split at hok
      · exact absurd hok (by simp)
      · split at hok
        · cases hok
          exact Or.inl hrec
        · cases hok
          exact installAssistantsFold_registry_mem w module scope pp _ _ reg rec hrec

/-- C5 amended: a record persisted by `install_cmd` (beyond those already in
the registry) carries exactly the project path the command computed: at
project scope a resolved, validated, non-null path; at user scope the optional
command-line path argument verbatim, which is null exactly when the argument
was omitted. -/
theorem install_cmd_record_project_path (w : World) (env : Env) (mn : PyStr)
    (assistant : Option PyStr) (scope : PyStr) (ppArg : Option PyStr)
    (reg : Registry) (res : CmdResult)
    (hok : install_cmd w env mn assistant scope ppArg reg = .ok res) :
    ∀ rec ∈ res.registry, rec ∈ reg ∨
      ((scope = projectScope → rec.project_path ≠ none) ∧
       (¬ scope = projectScope → rec.project_path = ppArg)) := by
  intro rec hrec
  unfold install_cmd at hok
  cases hstep : installPpStep w scope ppArg with
  | error n =>
    rw [hstep] at hok
    exact absurd hok (by simp)
  | ok pp =>
    rw [hstep] at hok
    have hpp := installPpStep_ok w scope ppArg pp hstep
    rcases installMain_registry_mem w env mn assistant scope pp reg res hok rec hrec with
      h | h
    · exact Or.inl h
    · refine Or.inr ⟨fun hs => ?_, fun hs => ?_⟩
      · rw [h]
        exact hpp.1 hs
      · rw [h]
        exact hpp.2 hs

/-- The result of the amended-C5 witness run: user scope, no path argument. -/
def c5AmendedRes : CmdResult :=
  (install_cmd allExistWorld c5Env "docgen".data (some claudeCode) userScope
      none []).toOption.getD { count := 0, registry := [], effects := [] }

/-- Witness for the amended C5: a user-scope install without a path argument
succeeds and every persisted record has a null project_path. -/
theorem install_cmd_record_project_path_witness :
    install_cmd allExistWorld c5Env "docgen".data (some claudeCode) userScope
        none [] = .ok c5AmendedRes ∧
    ∀ rec ∈ c5AmendedRes.registry, rec ∈ ([] : Registry) ∨
      ((userScope = projectScope → rec.project_path ≠ none) ∧
       (¬ userScope = projectScope → rec.project_path = none)) :=
  ⟨rfl,
    install_cmd_record_project_path allExistWorld c5Env "docgen".data
      (some claudeCode) userScope none [] c5AmendedRes rfl⟩

/- ------------------------------------------------------------------ -/
/- `lola.cli.install.uninstall_cmd`                                    -/
/- ------------------------------------------------------------------ -/

/-- Modelled from the spec: `lola.command_converters.get_command_filename` is
not among the provided sources.  Spec section 3: command records store raw
names and "prefix is reconstructed deterministically at use sites"; the
repository's tests show claude-code command files named
`<module>-<command>.md`. -/
def get_command_filename (_assistant moduleName cmdName : PyStr) : PyStr :=
  prefixedName moduleName cmdName ++ ".md".data

/-- Modelled from the spec: `lola.core.generator.remove_gemini_skills` is not
among the provided sources.  Spec section 4.2: remove deletes only the named
sections belonging to the targeted module, leaving the rest of the document
intact, and removing a nonexistent artifact is a no-op; it returns whether
anything was removed (the caller prints only on a true result). -/
def remove_gemini_skills (w : World) (dest : FPath) (moduleName : PyStr) :
    Bool × List Effect :=
  if w.geminiSections dest moduleName then
    (true, [Effect.removeGeminiSections dest moduleName])
  else (false, [])

/-- An existence-guarded removal loop: per item, remove the artifact only when
it is present (`if <path>.exists(): <remove>`). -/
def guardedRemovals (c : PyStr → Bool) (g : PyStr → Effect) : List PyStr → List Effect
  | [] => []
  | x :: rest => (if c x then [g x] else []) ++ guardedRemovals c g rest

/-- The skill-removal segment of the uninstall loop (install.py lines
212-238). -/
def uninstallSkillEffs (w : World) (moduleName : PyStr) (inst : Installation) :
    List Effect :=
  if inst.skills.isEmpty then []
  else
    match get_assistant_skill_path inst.assistant inst.scope inst.project_path with
    | .error _ => [Effect.reportPathError "Cannot determine skill path".data]
    | .ok skill_dest =>
      if inst.assistant = geminiCli then
        (remove_gemini_skills w skill_dest moduleName).2
      else if inst.assistant = cursorAsst then
        guardedRemovals (fun sn => w.fs (pjoin skill_dest (sn ++ ".mdc".data)))
          (fun sn => Effect.unlinkFile (pjoin skill_dest (sn ++ ".mdc".data)))
          inst.skills
      else
        guardedRemovals (fun sn => w.fs (pjoin skill_dest sn))
          (fun sn => Effect.rmTree (pjoin skill_dest sn)) inst.skills

/-- The command-removal segment of the uninstall loop (install.py lines
240-254). -/
def uninstallCmdEffs (w : World) (moduleName : PyStr) (inst : Installation) :
    List Effect :=
  if inst.commands.isEmpty then []
  else
    match get_assistant_command_path inst.assistant inst.scope inst.project_path with
    | .error _ => [Effect.reportPathError "Cannot determine command path".data]
    | .ok command_dest =>
      guardedRemovals
        (fun cn => w.fs (pjoin command_dest (get_command_filename inst.assistant moduleName cn)))
        (fun cn => Effect.unlinkFile
          (pjoin command_dest (get_command_filename inst.assistant moduleName cn)))
        inst.commands

/-- The project-local module-copy removal segment of the uninstall loop
(install.py lines 256-266). -/
def uninstallLocalEffs (w : World) (moduleName : PyStr) (inst : Installation) :
    List Effect :=
  if inst.scope = projectScope then
    match inst.project_path with
    | some p =>
      if p.isEmpty then []
      else
        if w.symlink (pjoin (get_local_modules_path (some p)) moduleName) then
          [Effect.unlinkFile (pjoin (get_local_modules_path (some p)) moduleName)]
        else if w.fs (pjoin (get_local_modules_path (some p)) moduleName) then
          [Effect.rmTree (pjoin (get_local_modules_path (some p)) moduleName)]
        else []
    | none => []
  else []

/-- One iteration of the uninstall loop (install.py lines 211-274): remove
skill artifacts, command artifacts, the project-local module copy, then the
registry record.  Every filesystem removal is guarded by the corresponding
existence check. -/
def uninstallOne (w : World) (moduleName : PyStr) (inst : Installation)
    (reg : Registry) : Registry × List Effect :=
  (registryRemove reg moduleName inst.assistant inst.scope inst.project_path,
   uninstallSkillEffs w moduleName inst ++ uninstallCmdEffs w moduleName inst ++
     uninstallLocalEffs w moduleName inst)

/-- The uninstall loop over all matching installations, threading the
registry. -/
def uninstallLoop (w : World) (moduleName : PyStr) :
    List Installation → Registry → Registry × List Effect
  | [], reg => (reg, [])
  | inst :: rest, reg =>
    let r := uninstallOne w moduleName inst reg
    let restR := uninstallLoop w moduleName rest r.1
    (restR.1, r.2 ++ restR.2)

/-- The successive assistant / scope / project-path filters of
`uninstall_cmd` (install.py lines 172-179); Python's falsy test skips a filter
whose value is absent or empty. -/
def uninstallMatches (w : World) (reg : Registry) (moduleName : PyStr)
    (assistant scope project_path : Option PyStr) : List Installation :=
  let l0 := registryFind reg moduleName
  let l1 := match assistant with
    | some a => if a.isEmpty then l0 else l0.filter (fun i => decide (i.assistant = a))
    | none => l0
  let l2 := match scope with
    | some s => if s.isEmpty then l1 else l1.filter (fun i => decide (i.scope = s))
    | none => l1
  match project_path with
  | some p =>
    if p.isEmpty then l2
    else l2.filter (fun i => decide (i.project_path = some (w.resolve p)))
  | none => l2

structure UninstallResult where
  registry : Registry
  effects : List Effect
  prompted : Bool
  cancelled : Bool
  deriving DecidableEq, Repr

/-- `lola.cli.install.uninstall_cmd` (install.py lines 149-277).  The
confirmation prompt is an oracle `confirm`; `prompted` records whether the
multiple-matches prompt was shown, and `cancelled` whether the user refused
it. -/
def uninstall_cmd (w : World) (confirm : Bool) (reg : Registry)
    (moduleName : PyStr) (assistant scope project_path : Option PyStr)
    (force : Bool) : UninstallResult :=
  if (registryFind reg moduleName).isEmpty then
    { registry := reg, effects := [], prompted := false, cancelled := false }
  else if (uninstallMatches w reg moduleName assistant scope project_path).isEmpty then
    { registry := reg, effects := [], prompted := false, cancelled := false }
  else if 1 < (uninstallMatches w reg moduleName assistant scope project_path).length ∧
      force = false then
    if confirm = false then
      { registry := reg, effects := [], prompted := true, cancelled := true }
    else
      { registry := (uninstallLoop w moduleName
          (uninstallMatches w reg moduleName assistant scope project_path) reg).1
        effects := (uninstallLoop w moduleName
          (uninstallMatches w reg moduleName assistant scope project_path) reg).2
        prompted := true, cancelled := false }
  else
    { registry := (uninstallLoop w moduleName
        (uninstallMatches w reg moduleName assistant scope project_path) reg).1
      effects := (uninstallLoop w moduleName
        (uninstallMatches w reg moduleName assistant scope project_path) reg).2
      prompted := false, cancelled := false }

/-- The filtered match list is empty whenever the module has no records. -/
theorem uninstallMatches_of_find_empty (w : World) (reg : Registry)
    (mn : PyStr) (a s pp : Option PyStr)
    (h : (registryFind reg mn).isEmpty = true) :
    uninstallMatches w reg mn a s pp = [] := by
  have h0 : registryFind reg mn = [] := List.isEmpty_iff.mp h
  unfold uninstallMatches
  rw [h0]
  cases a with
  | none =>
    cases s with
    | none =>
      cases pp with
      | none => rfl
      | some p => by_cases hp : p.isEmpty = true <;> simp [hp]
    | some sv =>
      by_cases hs : sv.isEmpty = true <;>
        cases pp with
        | none => simp [hs]
        | some p => by_cases hp : p.isEmpty = true <;> simp [hs, hp]
  | some av =>
    by_cases ha : av.isEmpty = true <;>
      cases s with
      | none =>
        cases pp with
        | none => simp [ha]
        | some p => by_cases hp : p.isEmpty = true <;> simp [ha, hp]
      | some sv =>
        by_cases hs : sv.isEmpty = true <;>
          cases pp with
          | none => simp [ha, hs]
          | some p => by_cases hp : p.isEmpty = true <;> simp [ha, hs, hp]

/-- C6: the confirmation prompt is shown exactly when more than one record
matches and force is not set; a refused prompt removes nothing — no artifact
effects and an unchanged registry. -/
theorem uninstall_prompt_gate (w : World) (confirm : Bool) (reg : Registry)
    (mn : PyStr) (a s pp : Option PyStr) (force : Bool) :
    ((uninstall_cmd w confirm reg mn a s pp force).prompted = true ↔
      (1 < (uninstallMatches w reg mn a s pp).length ∧ force = false)) ∧
    ((uninstall_cmd w confirm reg mn a s pp force).prompted = true →
      confirm = false →
      (uninstall_cmd w confirm reg mn a s pp force).registry = reg ∧
      (uninstall_cmd w confirm reg mn a s pp force).effects = [] ∧
      (uninstall_cmd w confirm reg mn a s pp force).cancelled = true) := by
  unfold uninstall_cmd
  by_cases h0 : (registryFind reg mn).isEmpty = true
  · have hm := uninstallMatches_of_find_empty w reg mn a s pp h0
    simp [h0, hm]
  · simp only [Bool.not_eq_true] at h0
    rw [h0]
    by_cases hme : (uninstallMatches w reg mn a s pp).isEmpty = true
    · have hlen : (uninstallMatches w reg mn a s pp).length = 0 := by
        simp [List.isEmpty_iff.mp hme]
      simp [hme, hlen]
    · simp only [Bool.not_eq_true] at hme
      rw [hme]
      by_cases hp : 1 < (uninstallMatches w reg mn a s pp).length ∧ force = false
      · rw [if_pos hp]
        by_cases hc : confirm = false
        · simp [hc, hp]
        · simp [hc, hp]
      · rw [if_neg hp]
        simp [hp]

/-- The docgen module installed to claude-code, user scope. -/
def docgenClaudeInst : Installation :=
  { module_name := "docgen".data
    assistant := claudeCode
    scope := userScope
    project_path := none
    skills := [prefixedName "docgen".data "summarize".data]
    commands := [] }

/-- The docgen module installed to gemini-cli, user scope (commands only). -/
def docgenGeminiInst : Installation :=
  { module_name := "docgen".data
    assistant := geminiCli
    scope := userScope
    project_path := none
    skills := []
    commands := ["draft".data] }

/-- A registry with the docgen module installed to two assistants. -/
def twoInstallRegistry : Registry := [docgenClaudeInst, docgenGeminiInst]

/-- Witness for C6: two matching records, no force, refused confirmation:
prompted, cancelled, registry unchanged, nothing removed. -/
theorem uninstall_prompt_gate_witness :
    (uninstall_cmd emptyWorld false twoInstallRegistry "docgen".data none none none
      false).prompted = true ∧
    (uninstall_cmd emptyWorld false twoInstallRegistry "docgen".data none none none
      false).registry = twoInstallRegistry ∧
    (uninstall_cmd emptyWorld false twoInstallRegistry "docgen".data none none none
      false).effects = [] ∧
    (uninstall_cmd emptyWorld false twoInstallRegistry "docgen".data none none none
      false).cancelled = true := by
  have h := uninstall_prompt_gate emptyWorld false twoInstallRegistry "docgen".data
    none none none false
  have hp : (uninstall_cmd emptyWorld false twoInstallRegistry "docgen".data none none
      none false).prompted = true := h.1.mpr ⟨by decide, rfl⟩
  have h2 := h.2 hp rfl
  exact ⟨hp, h2.1, h2.2.1, h2.2.2⟩

/-- A guarded removal loop removes nothing when every guard is false. -/
theorem guardedRemovals_nil (c : PyStr → Bool) (g : PyStr → Effect)
    (l : List PyStr) (h : ∀ x ∈ l, c x = false) :
    guardedRemovals c g l = [] := by
  induction l with
  | nil => rfl
  | cons x rest ih =>
    have hx := h x (List.mem_cons_self x rest)
    simp [guardedRemovals, hx, ih fun y hy => h y (List.mem_cons_of_mem _ hy)]

/-- With no artifacts present, the skill segment performs no filesystem
mutation. -/
theorem uninstallSkillEffs_no_writes (w : World) (mn : PyStr) (inst : Installation)
    (hfs : ∀ p, w.fs p = false) (hgem : ∀ d m2, w.geminiSections d m2 = false) :
    ∀ e ∈ uninstallSkillEffs w mn inst, e.isWrite = false := by
  intro e he
  unfold uninstallSkillEffs at he
  split at he
  · simp at he
  · split at he
    · rw [List.mem_singleton] at he
      rw [he]
      rfl
    · rename_i skill_dest
      split at he
      · simp [remove_gemini_skills, hgem] at he
      · split at he
        · rw [guardedRemovals_nil _ _ _ fun x _ => hfs _] at he
          simp at he
        · rw [guardedRemovals_nil _ _ _ fun x _ => hfs _] at he
          simp at he

/-- With no artifacts present, the command segment performs no filesystem
mutation. -/
theorem uninstallCmdEffs_no_writes (w : World) (mn : PyStr) (inst : Installation)
    (hfs : ∀ p, w.fs p = false) :
    ∀ e ∈ uninstallCmdEffs w mn inst, e.isWrite = false := by
  intro e he
  unfold uninstallCmdEffs at he
  split at he
  · simp at he
  · split at he
    · rw [List.mem_singleton] at he
      rw [he]
      rfl
    · rw [guardedRemovals_nil _ _ _ fun x _ => hfs _] at he
      simp at he

/-- With no artifacts present, the local-copy segment performs no filesystem
mutation. -/
theorem uninstallLocalEffs_no_writes (w : World) (mn : PyStr) (inst : Installation)
    (hfs : ∀ p, w.fs p = false) (hsym : ∀ p, w.symlink p = false) :
    ∀ e ∈ uninstallLocalEffs w mn inst, e.isWrite = false := by
  intro e he
  unfold uninstallLocalEffs at he
  split at he
  · split at he
    · rename_i p
      split at he
      · simp at he
      · rw [hsym, hfs] at he
        simp at he
    · simp at he
  · simp at he

/-- C8: uninstalling a record whose artifacts are all already absent (nothing
exists on disk, nothing is a symlink, no gemini sections remain) performs no
filesystem mutation whatsoever — every guarded removal is skipped, nothing
errors — and the registry record is still deleted. -/
theorem uninstall_absent_artifacts_noop (w : World) (mn : PyStr)
    (inst : Installation) (reg : Registry)
    (hfs : ∀ p, w.fs p = false) (hsym : ∀ p, w.symlink p = false)
    (hgem : ∀ d m2, w.geminiSections d m2 = false) :
    (uninstallOne w mn inst reg).1 =
      registryRemove reg mn inst.assistant inst.scope inst.project_path ∧
    ∀ e ∈ (uninstallOne w mn inst reg).2, e.isWrite = false := by
  refine ⟨rfl, ?_⟩
  intro e he
  dsimp only [uninstallOne] at he
  rcases List.mem_append.mp he with h1 | h1
  · rcases List.mem_append.mp h1 with h2 | h2
    · exact uninstallSkillEffs_no_writes w mn inst hfs hgem e h2
    · exact uninstallCmdEffs_no_writes w mn inst hfs e h2
  · exact uninstallLocalEffs_no_writes w mn inst hfs hsym e h1

/-- Witness for C8: a claude-code user-scope record with a skill and a
command, in a world where nothing exists. -/
theorem uninstall_absent_artifacts_noop_witness :
    (uninstallOne emptyWorld "docgen".data docgenClaudeInst twoInstallRegistry).1 =
      registryRemove twoInstallRegistry "docgen".data docgenClaudeInst.assistant
        docgenClaudeInst.scope docgenClaudeInst.project_path ∧
    ∀ e ∈ (uninstallOne emptyWorld "docgen".data docgenClaudeInst
        twoInstallRegistry).2, e.isWrite = false :=
  uninstall_absent_artifacts_noop emptyWorld "docgen".data docgenClaudeInst
    twoInstallRegistry (fun _ => rfl) (fun _ => rfl) (fun _ _ => rfl)

/- ------------------------------------------------------------------ -/
/- `lola.cli.install.update_cmd`                                       -/
/- ------------------------------------------------------------------ -/

/-- The staleness test of `update_cmd` (install.py lines 322-324): project
scope, a truthy recorded project path, and the path no longer exists. -/
def isStale (w : World) (inst : Installation) : Bool :=
  decide (inst.scope = projectScope) &&
    (match inst.project_path with
     | some p => !p.isEmpty && !w.fs p
     | none => false)

/-- The gemini skill-refresh loop of `update_cmd` (install.py lines 375-394):
recover each original skill name with the naming scheme's inverse and collect
those whose source exists. -/
def updateSkillsGemini (w : World) (mn : PyStr) (source_module : FPath) :
    List PyStr → List PyStr × List Effect
  | [] => ([], [])
  | ps :: rest =>
    let original := unprefixed mn ps
    let restR := updateSkillsGemini w mn source_module rest
    if w.fs (pjoin source_module original) then
      (original :: restR.1, Effect.reportInstalled ps :: restR.2)
    else (restR.1, Effect.reportMissing original :: restR.2)

/-- The claude-code / cursor skill-refresh loop of `update_cmd` (install.py
lines 396-415). -/
def updateSkillsFiles (w : World) (mn assistant : PyStr)
    (source_module skill_dest : FPath) : List PyStr → List Effect
  | [] => []
  | ps :: rest =>
    (if generatorWriteOk w (pjoin source_module (unprefixed mn ps)) then
      [(if assistant = cursorAsst then
          Effect.writeCursorRule (pjoin source_module (unprefixed mn ps)) skill_dest ps
        else
          Effect.writeClaudeSkill (pjoin source_module (unprefixed mn ps))
            (pjoin skill_dest ps)),
       Effect.reportInstalled ps]
     else [Effect.reportMissing (unprefixed mn ps)]) ++
      updateSkillsFiles w mn assistant source_module skill_dest rest

/-- The command-refresh loop of `update_cmd` (install.py lines 425-440). -/
def updateCommandsLoop (w : World) (mn assistant : PyStr)
    (commandsDir command_dest : FPath) : List PyStr → List Effect
  | [] => []
  | cn :: rest =>
    (if generatorWriteOk w (pjoin commandsDir (cn ++ ".md".data)) then
      [Effect.writeCommandFile assistant (pjoin commandsDir (cn ++ ".md".data))
         command_dest cn mn,
       Effect.reportInstalled (prefixedName mn cn)]
     else [Effect.reportMissing cn]) ++
      updateCommandsLoop w mn assistant commandsDir command_dest rest

/-- The non-stale body of one update iteration (install.py lines 331-440):
global module lookup and validation, refresh of the local copy, then the
per-assistant skill and command regeneration. -/
def updateOneBody (w : World) (env : Env) (inst : Installation) : List Effect :=
  if w.fs (pjoin MODULES_DIR inst.module_name) = false then
    [Effect.reportMissing inst.module_name]
  else
    match env.moduleAt (pjoin MODULES_DIR inst.module_name) with
    | none => [Effect.reportMissing inst.module_name]
    | some gm =>
      if (env.validate gm).1 = false then [Effect.reportMissing inst.module_name]
      else
        let cpy := copy_module_to_local w gm (get_local_modules_path inst.project_path)
        match get_assistant_skill_path inst.assistant inst.scope inst.project_path with
        | .error _ => cpy.2 ++ [Effect.reportPathError "Cannot determine path".data]
        | .ok _ =>
          let skillEffs :=
            if inst.skills.isEmpty then []
            else
              match get_assistant_skill_path inst.assistant inst.scope inst.project_path with
              | .error _ => [Effect.reportPathError "Cannot determine skill path".data]
              | .ok skill_dest =>
                if inst.assistant = geminiCli then
                  let r := updateSkillsGemini w inst.module_name cpy.1 inst.skills
                  r.2 ++ (if r.1.isEmpty then []
                          else [Effect.writeGeminiMd skill_dest inst.module_name r.1])
                else
                  updateSkillsFiles w inst.module_name inst.assistant cpy.1
                    skill_dest inst.skills
          let cmdEffs :=
            if inst.commands.isEmpty then []
            else
              match get_assistant_command_path inst.assistant inst.scope inst.project_path with
              | .error _ => [Effect.reportPathError "Cannot determine command path".data]
              | .ok command_dest =>
                updateCommandsLoop w inst.module_name inst.assistant
                  (pjoin cpy.1 "commands".data) command_dest inst.commands
          cpy.2 ++ skillEffs ++ cmdEffs

structure UpdateOneResult where
  stale : Bool
  effects : List Effect
  deriving DecidableEq, Repr

/-- One iteration of the update loop (install.py lines 321-440): a stale
record is reported and skipped — `continue` — with no writes and no registry
mutation; otherwise the record's artifacts are regenerated. -/
def updateOne (w : World) (env : Env) (inst : Installation) : UpdateOneResult :=
  if isStale w inst then
    { stale := true
      effects := [Effect.reportStale inst.module_name inst.assistant] }
  else { stale := false, effects := updateOneBody w env inst }

/-- The update loop, accumulating the stale count and the effects. -/
def updateLoop (w : World) (env : Env) : List Installation → Nat × List Effect
  | [] => (0, [])
  | inst :: rest =>
    let r := updateOne w env inst
    let restR := updateLoop w env rest
    ((if r.stale then 1 else 0) + restR.1, r.effects ++ restR.2)

/-- The module-name and assistant filters of `update_cmd` (install.py lines
306-309); Python's falsy test skips an absent or empty filter. -/
def updateFiltered (reg : Registry) (module_name assistant : Option PyStr) :
    List Installation :=
  let l1 := match module_name with
    | some m =>
      if m.isEmpty then reg else reg.filter (fun i => decide (i.module_name = m))
    | none => reg
  match assistant with
  | some a => if a.isEmpty then l1 else l1.filter (fun i => decide (i.assistant = a))
  | none => l1

structure UpdateResult where
  registry : Registry
  staleCount : Nat
  effects : List Effect
  deriving DecidableEq, Repr

/-- `lola.cli.install.update_cmd` (install.py lines 288-445): the update flow
reads the registry and never mutates it (it calls neither `add` nor `remove`);
stale installations are accumulated into a final count reported separately. -/
def update_cmd (w : World) (env : Env) (reg : Registry)
    (module_name assistant : Option PyStr) : UpdateResult :=
  if (updateFiltered reg module_name assistant).isEmpty then
    { registry := reg, staleCount := 0, effects := [] }
  else
    { registry := reg
      staleCount := (updateLoop w env (updateFiltered reg module_name assistant)).1
      effects := (updateLoop w env (updateFiltered reg module_name assistant)).2 }

/-- A record is flagged stale by one update step exactly when the stale test
holds. -/
theorem updateOne_stale_eq (w : World) (env : Env) (inst : Installation) :
    (updateOne w env inst).stale = isStale w inst := by
  unfold updateOne
  by_cases h : isStale w inst = true
  · rw [if_pos h, h]
  · rw [Bool.not_eq_true] at h
    rw [h]
    rfl

/-- The loop's stale total counts exactly the stale records. -/
theorem updateLoop_staleCount (w : World) (env : Env) (l : List Installation) :
    (updateLoop w env l).1 = l.countP (fun i => isStale w i) := by
  induction l with
  | nil => rfl
  | cons inst rest ih =>
    simp only [updateLoop, updateOne_stale_eq, ih, List.countP_cons]
    cases h : isStale w inst <;> simp [h, Nat.add_comm]

/-- C3: a stale project-scope record is reported as stale by the update flow,
no writes are performed for it, the registry is left exactly as it was (the
record is neither deleted nor rewritten), and it is counted in the stale
total, which is therefore positive. -/
theorem update_stale_record_preserved (w : World) (env : Env) (reg : Registry)
    (mnF aF : Option PyStr) (inst : Installation)
    (h1 : inst ∈ updateFiltered reg mnF aF) (h2 : isStale w inst = true) :
    (update_cmd w env reg mnF aF).registry = reg ∧
    (updateOne w env inst).stale = true ∧
    (∀ e ∈ (updateOne w env inst).effects, e.isWrite = false) ∧
    (update_cmd w env reg mnF aF).staleCount =
      (updateFiltered reg mnF aF).countP (fun i => isStale w i) ∧
    0 < (update_cmd w env reg mnF aF).staleCount := by
  have hne : (updateFiltered reg mnF aF).isEmpty = false := by
    cases hl : updateFiltered reg mnF aF with
    | nil => rw [hl] at h1; simp at h1
    | cons a t => rfl
  have hcnt : (update_cmd w env reg mnF aF).staleCount =
      (updateFiltered reg mnF aF).countP (fun i => isStale w i) := by
    unfold update_cmd
    rw [hne]
    exact updateLoop_staleCount w env _
  refine ⟨?_, ?_, ?_, hcnt, ?_⟩
  · unfold update_cmd
    split <;> rfl
  · rw [updateOne_stale_eq, h2]
  · intro e he
    unfold updateOne at he
    rw [if_pos h2] at he
    rw [List.mem_singleton] at he
    rw [he]
    rfl
  · rw [hcnt]
    exact List.countP_pos_iff.mpr ⟨inst, h1, h2⟩

/-- A stale project-scope record: its project path is gone from disk. -/
def staleInst : Installation :=
  { module_name := "docgen".data
    assistant := claudeCode
    scope := projectScope
    project_path := some "/gone".data
    skills := [prefixedName "docgen".data "summarize".data]
    commands := [] }

/-- A trivial external-module environment. -/
def trivialEnv : Env :=
  { moduleAt := fun _ => none
    validate := fun _ => (true, []) }

/-- Witness for C3: one stale record in the registry; update reports it,
writes nothing for it, and leaves the registry untouched. -/
theorem update_stale_record_preserved_witness :
    (update_cmd emptyWorld trivialEnv [staleInst] none none).registry = [staleInst] ∧
    (updateOne emptyWorld trivialEnv staleInst).stale = true ∧
    (∀ e ∈ (updateOne emptyWorld trivialEnv staleInst).effects, e.isWrite = false) ∧
    (update_cmd emptyWorld trivialEnv [staleInst] none none).staleCount =
      (updateFiltered [staleInst] none none).countP
        (fun i => isStale emptyWorld i) ∧
    0 < (update_cmd emptyWorld trivialEnv [staleInst] none none).staleCount :=
  update_stale_record_preserved emptyWorld trivialEnv [staleInst] none none
    staleInst (by decide) (by decide)

end Lola
